import Mathlib

/-!
Verification of the toolchain-identity / artifact-directory resolution logic of
`BuildSystem/scons/cplusplus.py` (Nuclex native framework build helpers).

Python strings are modelled as `List Char`; the SCons environment (a string-keyed
settings bag) is modelled as an explicit structure whose `Option` fields capture
key presence (`'KEY' in environment`); Python exceptions are modelled with
`Except PyError`.  The two regular expressions of the source
(`[0-9][0-9.]*` for version extraction and the compatibility pattern built by
`_build_library_name_regex`) are modelled by functional matchers that follow the
patterns' leftmost/greedy backtracking behaviour on the grammar they describe.
-/

set_option autoImplicit false

namespace Cplusplus

/-- Shorthand turning a Lean string literal into the `List Char` model of
a Python string. -/
def chars (s : String) : List Char := s.toList

/-- Python exception kinds raised by the modelled code paths. -/
inductive PyError where
  | fileNotFound
  | keyError
  | indexError
  | valueError
deriving DecidableEq, Repr

instance {ε α : Type} [DecidableEq ε] [DecidableEq α] : DecidableEq (Except ε α) := fun a b =>
  match a, b with
  | .ok x, .ok y =>
    if h : x = y then isTrue (by rw [h]) else isFalse (fun hh => by cases hh; exact h rfl)
  | .ok _, .error _ => isFalse (fun hh => by cases hh)
  | .error _, .ok _ => isFalse (fun hh => by cases hh)
  | .error e, .error f =>
    if h : e = f then isTrue (by rw [h]) else isFalse (fun hh => by cases hh; exact h rfl)

/-- `list[i]`: Python list indexing, raising `IndexError` when out of range. -/
def pyIndex {α : Type} (l : List α) (i : Nat) : Except PyError α :=
  match l.get? i with
  | some x => Except.ok x
  | none => Except.error PyError.indexError

/-- Value of a decimal digit character. -/
def digitVal (c : Char) : Nat := c.toNat - 48

/-- Numeric value of a list of decimal digit characters (most significant first). -/
def digitsToNat (l : List Char) : Nat := l.foldl (fun a c => 10 * a + digitVal c) 0

/-- `int(s)`: Python string-to-integer conversion for the non-negative decimal
strings that occur in this code (version components split out of a
digits-and-dots run); anything else raises `ValueError`. -/
def pyInt (s : List Char) : Except PyError Nat :=
  if s ≠ [] ∧ s.all Char.isDigit then Except.ok (digitsToNat s) else Except.error PyError.valueError

/-- Fuel-indexed decimal rendering helper for `str(n)`. -/
def natToDigitsAux : Nat → Nat → List Char
  | 0, _ => []
  | fuel + 1, n =>
    if n < 10 then [Nat.digitChar n]
    else natToDigitsAux fuel (n / 10) ++ [Nat.digitChar (n % 10)]

/-- `str(n)` for a non-negative Python integer: its decimal digits. -/
def natToDigits (n : Nat) : List Char := natToDigitsAux (n + 1) n

/-- `s.split(sep)` for a single-character separator: Python keeps empty pieces
and maps the empty string to `[""]`. -/
def pySplit (s : List Char) (sep : Char) : List (List Char) :=
  match s with
  | [] => [[]]
  | c :: rest =>
    if c = sep then [] :: pySplit rest sep
    else
      match pySplit rest sep with
      | [] => [[c]]
      | p :: ps => (c :: p) :: ps

/-- `re.search('[0-9][0-9.]*', s)`: the first maximal run of digits-and-dots
that starts with a digit, or `none` when `s` holds no digit. -/
def reSearchNum : List Char → Option (List Char)
  | [] => none
  | c :: rest =>
    if c.isDigit then some (c :: rest.takeWhile (fun d => d.isDigit || d = '.'))
    else reSearchNum rest

/-- Strips a literal off the front of a string, returning the remainder. -/
def stripLead? : List Char → List Char → Option (List Char)
  | [], s => some s
  | _ :: _, [] => none
  | p :: ps, c :: cs => if p = c then stripLead? ps cs else none

/--
The SCons environment, restricted to the settings the modelled functions read.
`Option` captures presence of the key (`'KEY' in environment`); for
`TARGET_ARCH` the inner `Option` captures a present key whose value is `None`.
`hostIsWindows` models `platform.system() == 'Windows'` (ambient, not a key).
`probeOutput` models the text that `str(stdout)` of the spawned compiler
version probe yields (searched by `[0-9][0-9.]*`).
`msvs` models `'MSVS' in environment` together with whether the inner dict has
a `'VCINSTALLDIR'` key.  `compatRegexCache` models a previously built
`COMPATIBLE_LIBRARY_NAME_REGEX` value (only canonical patterns are ever stored).
-/
structure Env where
  hostIsWindows : Bool
  debug : Option Bool
  cxx : Option (List Char)
  cc : Option (List Char)
  compilerVersionCache : Option (List (List Char))
  msvcVersion : Option (List Char)
  msvs : Option Bool
  targetArch : Option (Option (List Char))
  compatRegexCache : Option (List Char × List (List Char) × List Char × Bool)
  probeOutput : List Char

/-- `get_compiler_name(environment)` (cplusplus.py lines 309-333). -/
def get_compiler_name (env : Env) : Except PyError (List Char) := do
  let compilerExecutable ←
    match env.cxx with
    | some v =>
      if v = chars "$CC" then
        match env.cc with
        | some c => Except.ok c
        | none => Except.error PyError.keyError
      else Except.ok v
    | none =>
      match env.cc with
      | some c => Except.ok c
      | none => Except.error PyError.fileNotFound
  if compilerExecutable = chars "cl" ∨ compilerExecutable = chars "icc" then
    Except.ok (chars "msvc")
  else if compilerExecutable = chars "gcc" ∨ compilerExecutable = chars "g++" then
    Except.ok (chars "gcc")
  else if compilerExecutable = chars "clang" ∨ compilerExecutable = chars "clang++" then
    Except.ok (chars "clang")
  else
    Except.ok compilerExecutable

/-- `get_compiler_version(environment)` (cplusplus.py lines 337-389).
Returns the version component list, `none` when the extraction pattern found
no match in the probe output (the source's `return None`). -/
def get_compiler_version (env : Env) : Except PyError (Option (List (List Char))) :=
  match env.compilerVersionCache with
  | some v => Except.ok (some v)
  | none => do
    let compilerExecutable ←
      match env.cxx with
      | some v =>
        if v = chars "$CC" then
          match env.cc with
          | some c => Except.ok c
          | none => Except.error PyError.keyError
        else Except.ok v
      | none =>
        match env.cc with
        | some c => Except.ok c
        | none => Except.error PyError.fileNotFound
    if compilerExecutable = chars "cl" ∨ compilerExecutable = chars "icc" then
      match env.msvcVersion with
      | some mv => Except.ok (some (pySplit mv '.'))
      | none => do
        -- `cl_install_directory = environment['MSVS']['VCINSTALLDIR']` (value unused)
        match env.msvs with
        | some hasVcInstallDir =>
          if hasVcInstallDir then Except.ok () else Except.error PyError.keyError
        | none => Except.ok ()
        match reSearchNum env.probeOutput with
        | none => Except.ok none
        | some g => Except.ok (some (pySplit g '.'))
    else
      match reSearchNum env.probeOutput with
      | none => Except.ok none
      | some g => Except.ok (some (pySplit g '.'))

/-- `_get_architecture_or_default(environment)` (cplusplus.py lines 561-572):
`environment['TARGET_ARCH']` raises `KeyError` for a missing key; a present
key with value `None` falls back to `'amd64'`. -/
def get_architecture_or_default (env : Env) : Except PyError (List Char) :=
  match env.targetArch with
  | none => Except.error PyError.keyError
  | some none => Except.ok (chars "amd64")
  | some (some architecture) => Except.ok architecture

/-- `_get_compatible_compiler_tags(environment)` (cplusplus.py lines 622-635). -/
def get_compatible_compiler_tags (env : Env) : List (List Char) :=
  if env.hostIsWindows then [chars "msvc", chars "icc"] else [chars "gcc", chars "clang"]

/-- `_make_build_directory_name(environment, compiler_name, major, minor)`
(cplusplus.py lines 507-557); the version numbers arrive as Python ints and
are rendered with `str`. -/
def make_build_directory_name (env : Env) (compilerName : List Char)
    (compilerMajorVersion : Nat) (compilerMinorVersion : Option Nat) :
    Except PyError (List Char) := do
  let platformName := if env.hostIsWindows then chars "windows" else chars "linux"
  let architecture ← get_architecture_or_default env
  let isDebugBuild := env.debug.getD false
  let buildConfiguration := if isDebugBuild then chars "debug" else chars "release"
  let compiler :=
    match compilerMinorVersion with
    | none => compilerName ++ natToDigits compilerMajorVersion
    | some minor => compilerName ++ natToDigits compilerMajorVersion ++ '.' :: natToDigits minor
  Except.ok (platformName ++ '-' :: compiler ++ '-' :: architecture ++ '-' :: buildConfiguration)

/--
The information content of the compatibility pattern string built by
`_build_library_name_regex` (cplusplus.py lines 576-618):
`^(platformTag)-(tag1|tag2)(\d+|\d+\.\d+)-(architectureTag)($|-(debug|release)$)`
with the tail alternation reduced to `($|-(release)$)` when `allowDebug` is
false (release builds only link release libraries).
-/
structure LibraryNameRegex where
  platformTag : List Char
  compilerTags : List (List Char)
  architectureTag : List Char
  allowDebug : Bool
deriving DecidableEq, Repr

/-- `_build_library_name_regex(environment)`: either the cached pattern or the
canonical one for the environment's platform, compatible compilers,
architecture and build configuration. -/
def build_library_name_regex (env : Env) : Except PyError LibraryNameRegex :=
  match env.compatRegexCache with
  | some (p, tags, a, d) => Except.ok ⟨p, tags, a, d⟩
  | none => do
    let isDebugBuild := env.debug.getD false
    let platformTag := if env.hostIsWindows then chars "windows" else chars "linux"
    let architecture ← get_architecture_or_default env
    Except.ok ⟨platformTag, get_compatible_compiler_tags env, architecture, isDebugBuild⟩

/-- The capture groups of a successful `re.match` of the compatibility pattern:
group 1 (platform), group 2 (compiler tag), group 3 (version), group 4
(architecture), group 6 (build configuration; `none` when the name has no
trailing config segment). -/
structure ParsedName where
  platformTag : List Char
  compilerTag : List Char
  version : List Char
  architectureTag : List Char
  buildTag : Option (List Char)
deriving DecidableEq, Repr

/-- The version group `(\d+|\d+\.\d+)` followed by the literal `-`:
a maximal nonempty digit run, optionally extended by `.` and a second maximal
nonempty digit run (the greedy runs cannot backtrack into a `-`). Returns the
group text and the remainder starting at the `-`. -/
def parseVersionGroup (s : List Char) : Option (List Char × List Char) :=
  if s.takeWhile Char.isDigit = [] then none
  else
    match s.dropWhile Char.isDigit with
    | '.' :: r2 =>
      if r2.takeWhile Char.isDigit = [] then none
      else some (s.takeWhile Char.isDigit ++ '.' :: r2.takeWhile Char.isDigit,
        r2.dropWhile Char.isDigit)
    | r1 => some (s.takeWhile Char.isDigit, r1)

/-- The tail group `($|-(debug|release)$)` (or `($|-(release)$)` for release
builds): end of string, or a config segment reaching the end of the string.
Returns capture group 6. -/
def parseConfigTail (allowDebug : Bool) (s : List Char) : Option (Option (List Char)) :=
  if s = [] then some none
  else if allowDebug ∧ s = chars "-debug" then some (some (chars "debug"))
  else if s = chars "-release" then some (some (chars "release"))
  else none

/-- Tries each compiler tag of the alternation in order, backtracking to the
next tag when the continuation fails (Python `re` leftmost-alternation
semantics). -/
def matchCompilerTags (k : List Char → List Char → Option ParsedName) :
    List (List Char) → List Char → Option ParsedName
  | [], _ => none
  | t :: ts, s =>
    match stripLead? t s with
    | some rest =>
      match k t rest with
      | some p => some p
      | none => matchCompilerTags k ts s
    | none => matchCompilerTags k ts s

/-- `re.match(compatible_library_regex, name)`: functional model of matching
the compatibility pattern against a directory name, returning the capture
groups the source reads. -/
def reMatchLibrary (r : LibraryNameRegex) (s : List Char) : Option ParsedName :=
  match stripLead? (r.platformTag ++ ['-']) s with
  | none => none
  | some s1 =>
    matchCompilerTags
      (fun tag s2 =>
        match parseVersionGroup s2 with
        | none => none
        | some (ver, s3) =>
          match stripLead? ('-' :: r.architectureTag) s3 with
          | none => none
          | some s4 =>
            match parseConfigTail r.allowDebug s4 with
            | none => none
            | some cfg => some ⟨r.platformTag, tag, ver, r.architectureTag, cfg⟩)
      r.compilerTags s1

/-- `os.path.join(root, name)` (POSIX separator). -/
def pathJoin (root name : List Char) : List Char := root ++ '/' :: name

/-- The running best match of the directory scan in
`find_or_guess_library_directory` (the `closest_*` variables). -/
structure Closest where
  majorDifference : Nat
  minorVersion : Nat
  buildType : List Char
  directory : List Char
deriving DecidableEq, Repr

/-- `(is_debug_build and build_type == 'debug') or (not is_debug_build) and
(build_type == 'release')`: whether a candidate's build type matches the
requested build configuration. -/
def matchesRequest (isDebugBuild : Bool) (buildType : List Char) : Bool :=
  (isDebugBuild && buildType == chars "debug") ||
    (!isDebugBuild && buildType == chars "release")

/-- The `is_closer_version` decision of the scan loop: strictly closer major
version, or same major distance with a larger minor version; on a full version
tie, whether the new candidate's build type matches the requested one. -/
def isCloserVersion (isDebugBuild : Bool) (majorDifference minorVersion : Nat)
    (buildType : List Char) (c : Closest) : Bool :=
  if majorDifference = c.majorDifference ∧ minorVersion = c.minorVersion then
    matchesRequest isDebugBuild buildType
  else
    majorDifference < c.majorDifference ||
      (majorDifference == c.majorDifference && minorVersion > c.minorVersion)

/-- One iteration of the directory-scan loop of
`find_or_guess_library_directory` (cplusplus.py lines 184-230): parse the
entry against the compatibility pattern, ignore non-matches and non-
directories, and otherwise accept the candidate when it is the first one or a
closer match than the best so far. -/
def scanStep (r : LibraryNameRegex) (isDebugBuild : Bool) (majorCompilerVersion : Nat)
    (isDir : List Char → Bool) (acc : Option Closest) (fileOrDir : List Char) :
    Except PyError (Option Closest) :=
  match reMatchLibrary r fileOrDir with
  | none => Except.ok acc
  | some parts =>
    if isDir fileOrDir then do
      let version := pySplit parts.version '.'
      let v0 ← pyIndex version 0
      let majorVersion ← pyInt v0
      let minorVersion ←
        if version.length = 1 then Except.ok 0
        else do
          let v1 ← pyIndex version 1
          pyInt v1
      let buildType := parts.buildTag.getD (chars "release")
      let majorDifference := Nat.dist majorVersion majorCompilerVersion
      match acc with
      | none =>
        Except.ok (some ⟨majorDifference, minorVersion, buildType, fileOrDir⟩)
      | some c =>
        if isCloserVersion isDebugBuild majorDifference minorVersion buildType c then
          Except.ok (some ⟨majorDifference, minorVersion, buildType, fileOrDir⟩)
        else Except.ok (some c)
    else Except.ok acc

/-- The warning printed when a close (non-exact) match is used. -/
def closestMatchWarning (libraryBuildsPath matchingDirectoryName closestDirectory : List Char) :
    List Char :=
  chars "\x1b[93mWarning: no fitting binary for library \"" ++ libraryBuildsPath ++
    chars "\" (needed \"" ++ matchingDirectoryName ++
    chars "\"), falling back to closest match, which is \"" ++ closestDirectory ++
    chars "\"\x1b[0m"

/-- The warning printed when the generic `lib` fallback is used. -/
def libFallbackWarning (libraryBuildsPath matchingDirectoryName : List Char) : List Char :=
  chars "\x1b[93mWarning: no fitting binary for library \"" ++ libraryBuildsPath ++
    chars "\" (needed \"" ++ matchingDirectoryName ++
    chars "\"), falling back to standard \"lib\" dir of unknown compiler and architecture.\x1b[0m"

/-- The error printed when nothing fits at all. -/
def notFoundMessage (libraryBuildsPath matchingDirectoryName : List Char) : List Char :=
  chars "\x1b[1;31mError: no fitting binary for library \"" ++ libraryBuildsPath ++
    chars "\" (needed \"" ++ matchingDirectoryName ++ chars "\") found. Giving up.\x1b[0m"

/--
`find_or_guess_library_directory(environment, library_builds_path)`
(cplusplus.py lines 134-256).  The filesystem is passed explicitly:
`entries` models `os.listdir(library_builds_path)` and `isDir name` models
`os.path.isdir(os.path.join(library_builds_path, name))`.  The returned pair
is the Python return value (a path or `None`) together with the list of
warning/error messages printed on the way.
-/
def find_or_guess_library_directory (env : Env) (libraryBuildsPath : List Char)
    (entries : List (List Char)) (isDir : List Char → Bool) :
    Except PyError (Option (List Char) × List (List Char)) := do
  let isDebugBuild := env.debug.getD false
  let compilerName ← get_compiler_name env
  -- (`if compiler_name is None: raise` is unreachable: the getter never returns None)
  let compilerVersionOpt ← get_compiler_version env
  let compilerVersion ←
    match compilerVersionOpt with
    | none => Except.error PyError.fileNotFound
    | some v => Except.ok v
  let majorStr ← pyIndex compilerVersion 0
  let majorCompilerVersion ← pyInt majorStr
  let minorStr ← pyIndex compilerVersion 1
  let minorCompilerVersion ← pyInt minorStr
  let matchingDirectoryName ←
    make_build_directory_name env compilerName majorCompilerVersion (some minorCompilerVersion)
  if isDir matchingDirectoryName then
    Except.ok (some (pathJoin libraryBuildsPath matchingDirectoryName), [])
  else do
    let compatibleLibraryRegex ← build_library_name_regex env
    let closestDirectory ←
      List.foldlM (scanStep compatibleLibraryRegex isDebugBuild majorCompilerVersion isDir)
        none entries
    match closestDirectory with
    | some c =>
      Except.ok (some (pathJoin libraryBuildsPath c.directory),
        [closestMatchWarning libraryBuildsPath matchingDirectoryName c.directory])
    | none =>
      if isDir (chars "lib") then
        Except.ok (some (pathJoin libraryBuildsPath (chars "lib")),
          [libFallbackWarning libraryBuildsPath matchingDirectoryName])
      else
        Except.ok (none, [notFoundMessage libraryBuildsPath matchingDirectoryName])

/-! ### Decimal rendering and parsing facts -/

theorem digitChar_isDigit {m : Nat} (h : m < 10) : (Nat.digitChar m).isDigit = true := by
  interval_cases m <;> decide

theorem digitVal_digitChar {m : Nat} (h : m < 10) : digitVal (Nat.digitChar m) = m := by
  interval_cases m <;> decide

theorem isDigit_ne_dot {c : Char} (h : c.isDigit = true) : c ≠ '.' := by
  intro hc
  rw [hc] at h
  exact absurd h (by decide)

theorem digitsToNat_concat (l : List Char) (c : Char) :
    digitsToNat (l ++ [c]) = 10 * digitsToNat l + digitVal c := by
  simp [digitsToNat, List.foldl_append]

theorem natToDigitsAux_spec :
    ∀ fuel n, n < fuel →
      natToDigitsAux fuel n ≠ [] ∧ (∀ c ∈ natToDigitsAux fuel n, c.isDigit = true) ∧
        digitsToNat (natToDigitsAux fuel n) = n := by
  intro fuel
  induction fuel with
  | zero => intro n hn; omega
  | succ fuel ih =>
    intro n hn
    by_cases h10 : n < 10
    · refine ⟨by simp [natToDigitsAux, h10], ?_, ?_⟩
      · intro c hc
        simp [natToDigitsAux, h10] at hc
        rw [hc]
        exact digitChar_isDigit h10
      · simp [natToDigitsAux, h10, digitsToNat, List.foldl]
        exact digitVal_digitChar h10
    · have hdiv : n / 10 < n := Nat.div_lt_self (by omega) (by omega)
      obtain ⟨hne, hdig, hval⟩ := ih (n / 10) (by omega)
      refine ⟨by simp [natToDigitsAux, h10], ?_, ?_⟩
      · intro c hc
        simp only [natToDigitsAux, if_neg h10, List.mem_append, List.mem_singleton] at hc
        rcases hc with hc | hc
        · exact hdig c hc
        · rw [hc]
          exact digitChar_isDigit (Nat.mod_lt n (by omega))
      · rw [natToDigitsAux, if_neg h10, digitsToNat_concat, hval,
          digitVal_digitChar (Nat.mod_lt n (by omega))]
        omega

theorem natToDigits_ne_nil (n : Nat) : natToDigits n ≠ [] :=
  (natToDigitsAux_spec (n + 1) n (by omega)).1

theorem natToDigits_isDigit (n : Nat) : ∀ c ∈ natToDigits n, c.isDigit = true :=
  (natToDigitsAux_spec (n + 1) n (by omega)).2.1

theorem digitsToNat_natToDigits (n : Nat) : digitsToNat (natToDigits n) = n :=
  (natToDigitsAux_spec (n + 1) n (by omega)).2.2

theorem pyInt_digits {s : List Char} (h1 : s ≠ []) (h2 : ∀ c ∈ s, c.isDigit = true) :
    pyInt s = .ok (digitsToNat s) := by
  rw [pyInt, if_pos ⟨h1, List.all_eq_true.mpr h2⟩]

/-! ### takeWhile / dropWhile / split / literal-strip facts -/

theorem takeWhile_mem_true {p : Char → Bool} :
    ∀ (l : List Char) (x : Char), x ∈ l.takeWhile p → p x = true := by
  intro l
  induction l with
  | nil => intro x hx; simp [List.takeWhile] at hx
  | cons a l ih =>
    intro x hx
    by_cases ha : p a = true
    · rw [List.takeWhile, ha] at hx
      rcases List.mem_cons.mp hx with hx | hx
      · rw [hx]; exact ha
      · exact ih x hx
    · rw [List.takeWhile, Bool.of_not_eq_true ha] at hx
      simp at hx

theorem takeWhile_append_stop {p : Char → Bool} :
    ∀ (l : List Char) {c : Char} (r : List Char), (∀ x ∈ l, p x = true) → p c = false →
      (l ++ c :: r).takeWhile p = l ∧ (l ++ c :: r).dropWhile p = c :: r := by
  intro l
  induction l with
  | nil => intro c r _ hc; simp [List.takeWhile, List.dropWhile, hc]
  | cons a l ih =>
    intro c r h hc
    have ha : p a = true := h a (by simp)
    have := ih r (fun x hx => h x (by simp [hx])) hc
    simp only [List.cons_append, List.takeWhile, List.dropWhile, ha, List.append_eq]
    exact ⟨by rw [this.1], this.2⟩

theorem pySplit_sepFree {sep : Char} :
    ∀ (s : List Char), (∀ c ∈ s, c ≠ sep) → pySplit s sep = [s] := by
  intro s
  induction s with
  | nil => intro _; rfl
  | cons c rest ih =>
    intro h
    rw [pySplit, if_neg (h c (by simp)), ih (fun x hx => h x (by simp [hx]))]

theorem pySplit_append {sep : Char} :
    ∀ (l : List Char) (r : List Char), (∀ c ∈ l, c ≠ sep) →
      pySplit (l ++ sep :: r) sep = l :: pySplit r sep := by
  intro l
  induction l with
  | nil => intro r _; rw [List.nil_append, pySplit, if_pos rfl]
  | cons a l ih =>
    intro r h
    rw [List.cons_append, pySplit, if_neg (h a (by simp)), ih r (fun x hx => h x (by simp [hx]))]

theorem stripLead?_append : ∀ (p r : List Char), stripLead? p (p ++ r) = some r := by
  intro p
  induction p with
  | nil => intro r; rfl
  | cons a p ih => intro r; rw [List.cons_append, stripLead?, if_pos rfl, ih]

/-! ### Inversion facts for the compatibility-pattern matcher -/

theorem parseVersionGroup_split {s v rest : List Char} (h : parseVersionGroup s = some (v, rest)) :
    (pySplit v '.' = [v] ∧ v ≠ [] ∧ ∀ c ∈ v, c.isDigit = true) ∨
    (∃ d1 d2, v = d1 ++ '.' :: d2 ∧ pySplit v '.' = [d1, d2] ∧ d1 ≠ [] ∧ d2 ≠ [] ∧
      (∀ c ∈ d1, c.isDigit = true) ∧ (∀ c ∈ d2, c.isDigit = true)) := by
  rw [parseVersionGroup] at h
  split at h
  · exact absurd h (by simp)
  · rename_i hne
    split at h
    · rename_i r2 hr1
      split at h
      · exact absurd h (by simp)
      · rename_i hne2
        simp only [Option.some_inj, Prod.mk.injEq] at h
        obtain ⟨hv, -⟩ := h
        have hd1 : ∀ c ∈ s.takeWhile Char.isDigit, c.isDigit = true :=
          fun c hc => takeWhile_mem_true _ c hc
        have hd2 : ∀ c ∈ r2.takeWhile Char.isDigit, c.isDigit = true :=
          fun c hc => takeWhile_mem_true _ c hc
        subst hv
        exact Or.inr ⟨_, _, rfl,
          by rw [pySplit_append _ _ (fun c hc => isDigit_ne_dot (hd1 c hc)),
            pySplit_sepFree _ (fun c hc => isDigit_ne_dot (hd2 c hc))],
          hne, hne2, hd1, hd2⟩
    · simp only [Option.some_inj, Prod.mk.injEq] at h
      obtain ⟨hv, -⟩ := h
      have hd1 : ∀ c ∈ s.takeWhile Char.isDigit, c.isDigit = true :=
        fun c hc => takeWhile_mem_true _ c hc
      subst hv
      exact Or.inl ⟨pySplit_sepFree _ (fun c hc => isDigit_ne_dot (hd1 c hc)), hne, hd1⟩

theorem parseConfigTail_cases {ad : Bool} {s : List Char} {cfg : Option (List Char)}
    (h : parseConfigTail ad s = some cfg) :
    cfg = none ∨ cfg = some (chars "release") ∨ (ad = true ∧ cfg = some (chars "debug")) := by
  rw [parseConfigTail] at h
  split_ifs at h with h1 h2 h3
  · exact Or.inl (Option.some_inj.mp h).symm
  · exact Or.inr (Or.inr ⟨h2.1, (Option.some_inj.mp h).symm⟩)
  · exact Or.inr (Or.inl (Option.some_inj.mp h).symm)

theorem matchCompilerTags_some {k : List Char → List Char → Option ParsedName} :
    ∀ {tags : List (List Char)} {s : List Char} {p : ParsedName},
      matchCompilerTags k tags s = some p →
      ∃ t s', t ∈ tags ∧ stripLead? t s = some s' ∧ k t s' = some p := by
  intro tags
  induction tags with
  | nil => intro s p h; exact absurd h (by rw [matchCompilerTags]; simp)
  | cons t ts ih =>
    intro s p h
    rw [matchCompilerTags] at h
    cases hst : stripLead? t s with
    | none =>
      simp only [hst] at h
      obtain ⟨t', s', ht, hs, hk⟩ := ih h
      exact ⟨t', s', by simp [ht], hs, hk⟩
    | some rest =>
      simp only [hst] at h
      cases hk : k t rest with
      | none =>
        simp only [hk] at h
        obtain ⟨t', s', ht, hs, hk'⟩ := ih h
        exact ⟨t', s', by simp [ht], hs, hk'⟩
      | some p' =>
        simp only [hk, Option.some_inj] at h
        subst h
        exact ⟨t, rest, by simp, hst, hk⟩

theorem reMatchLibrary_some {r : LibraryNameRegex} {s : List Char} {parts : ParsedName}
    (h : reMatchLibrary r s = some parts) :
    ((pySplit parts.version '.' = [parts.version] ∧ parts.version ≠ [] ∧
        ∀ c ∈ parts.version, c.isDigit = true) ∨
      (∃ d1 d2, parts.version = d1 ++ '.' :: d2 ∧ pySplit parts.version '.' = [d1, d2] ∧
        d1 ≠ [] ∧ d2 ≠ [] ∧ (∀ c ∈ d1, c.isDigit = true) ∧ (∀ c ∈ d2, c.isDigit = true))) ∧
    (parts.buildTag = none ∨ parts.buildTag = some (chars "release") ∨
      (r.allowDebug = true ∧ parts.buildTag = some (chars "debug"))) ∧
    parts.compilerTag ∈ r.compilerTags := by
  rw [reMatchLibrary] at h
  cases hp : stripLead? (r.platformTag ++ ['-']) s with
  | none => simp only [hp] at h; exact Option.noConfusion h
  | some s1 =>
    simp only [hp] at h
    obtain ⟨t, s', ht, -, hk⟩ := matchCompilerTags_some h
    cases hv : parseVersionGroup s' with
    | none => simp only [hv] at hk; exact Option.noConfusion hk
    | some vp =>
      obtain ⟨ver, s3⟩ := vp
      simp only [hv] at hk
      cases ha : stripLead? ('-' :: r.architectureTag) s3 with
      | none => simp only [ha] at hk; exact Option.noConfusion hk
      | some s4 =>
        simp only [ha] at hk
        cases hc : parseConfigTail r.allowDebug s4 with
        | none => simp only [hc] at hk; exact Option.noConfusion hk
        | some cfg =>
          simp only [hc, Option.some_inj] at hk
          subst hk
          exact ⟨parseVersionGroup_split hv, parseConfigTail_cases hc, ht⟩

/-! ### The scan loop as a pure fold -/

/-- The candidate record that a single scan iteration extracts from a
directory entry, `none` when the entry does not match the pattern or is not a
directory. -/
def candOf (r : LibraryNameRegex) (majorCompilerVersion : Nat) (isDir : List Char → Bool)
    (name : List Char) : Option Closest :=
  match reMatchLibrary r name with
  | none => none
  | some parts =>
    if isDir name then
      some ⟨Nat.dist (digitsToNat ((pySplit parts.version '.').headD []))
          majorCompilerVersion,
        if (pySplit parts.version '.').length = 1 then 0
        else digitsToNat (((pySplit parts.version '.').drop 1).headD []),
        parts.buildTag.getD (chars "release"), name⟩
    else none

/-- The exception-free restatement of `scanStep`. -/
def pureStep (r : LibraryNameRegex) (isDebugBuild : Bool) (majorCompilerVersion : Nat)
    (isDir : List Char → Bool) (acc : Option Closest) (name : List Char) : Option Closest :=
  match candOf r majorCompilerVersion isDir name with
  | none => acc
  | some cn =>
    match acc with
    | none => some cn
    | some c =>
      if isCloserVersion isDebugBuild cn.majorDifference cn.minorVersion cn.buildType c then
        some cn
      else some c

theorem except_ok_bind {ε α β : Type} (a : α) (f : α → Except ε β) :
    (Except.ok a : Except ε α) >>= f = f a := rfl

theorem scanStep_eq_pureStep (r : LibraryNameRegex) (d : Bool) (mj : Nat)
    (isDir : List Char → Bool) (acc : Option Closest) (name : List Char) :
    scanStep r d mj isDir acc name = .ok (pureStep r d mj isDir acc name) := by
  rw [scanStep, pureStep, candOf]
  cases hm : reMatchLibrary r name with
  | none => rfl
  | some parts =>
    by_cases hd : isDir name = true
    · simp only [hd, if_true]
      obtain ⟨hver, -, -⟩ := reMatchLibrary_some hm
      rcases hver with ⟨hsplit, hne, hdig⟩ | ⟨d1, d2, hv, hsplit, hne1, hne2, hdig1, hdig2⟩
      · cases acc with
        | none =>
          simp [hsplit, pyIndex, except_ok_bind, pyInt_digits hne hdig]
        | some c =>
          simp [hsplit, pyIndex, except_ok_bind, pyInt_digits hne hdig]
          try split <;> rfl
      · cases acc with
        | none =>
          simp [hsplit, pyIndex, except_ok_bind, pyInt_digits hne1 hdig1,
            pyInt_digits hne2 hdig2]
        | some c =>
          simp [hsplit, pyIndex, except_ok_bind, pyInt_digits hne1 hdig1,
            pyInt_digits hne2 hdig2]
          try split <;> rfl
    · simp [Bool.of_not_eq_true hd]

theorem foldlM_scanStep (r : LibraryNameRegex) (d : Bool) (mj : Nat)
    (isDir : List Char → Bool) :
    ∀ (l : List (List Char)) (acc : Option Closest),
      List.foldlM (scanStep r d mj isDir) acc l =
        .ok (List.foldl (pureStep r d mj isDir) acc l) := by
  intro l
  induction l with
  | nil => intro acc; rfl
  | cons x xs ih =>
    intro acc
    rw [List.foldlM_cons, scanStep_eq_pureStep]
    exact ih _

/-! ### The spec's candidate priority and the scan's maximality -/

/-- Rank of a candidate's build-config fit: `1` when it matches the active
request, `0` otherwise. -/
def matchRank (isDebugBuild : Bool) (c : Closest) : Nat :=
  cond (matchesRequest isDebugBuild c.buildType) 1 0

/-- Transcription of the spec's strict candidate priority: (a) smaller
absolute major-version difference; (b) on ties, larger minor version; (c) on
full version ties, a build configuration matching the active request beats a
mismatched one.  `specBetter d a b` says `a` is strictly preferred to `b`. -/
def specBetter (isDebugBuild : Bool) (a b : Closest) : Prop :=
  a.majorDifference < b.majorDifference ∨
    (a.majorDifference = b.majorDifference ∧ b.minorVersion < a.minorVersion) ∨
    (a.majorDifference = b.majorDifference ∧ a.minorVersion = b.minorVersion ∧
      matchRank isDebugBuild b < matchRank isDebugBuild a)

instance (d : Bool) (a b : Closest) : Decidable (specBetter d a b) := by
  unfold specBetter
  infer_instance

theorem specBetter_irrefl (d : Bool) (a : Closest) : ¬ specBetter d a a := by
  unfold specBetter
  omega

theorem notBetter_trans {d : Bool} {a b c : Closest} (h1 : ¬ specBetter d a b)
    (h2 : ¬ specBetter d b c) : ¬ specBetter d a c := by
  unfold specBetter at *
  omega

theorem notBetter_antisymm {d : Bool} {a b : Closest} (h1 : ¬ specBetter d a b)
    (h2 : ¬ specBetter d b a) :
    a.majorDifference = b.majorDifference ∧ a.minorVersion = b.minorVersion ∧
      matchRank d a = matchRank d b := by
  unfold specBetter at *
  omega

theorem matchRank_eq_one {d : Bool} (c : Closest) (h : matchesRequest d c.buildType = true) :
    matchRank d c = 1 := by
  rw [matchRank, h]
  rfl

theorem matchRank_eq_zero {d : Bool} (c : Closest) (h : matchesRequest d c.buildType = false) :
    matchRank d c = 0 := by
  rw [matchRank, h]
  rfl

theorem matchRank_le_one (d : Bool) (c : Closest) : matchRank d c ≤ 1 := by
  rw [matchRank]
  cases matchesRequest d c.buildType <;> simp

/-- When the scan accepts a new candidate, the previous best was not strictly
preferred to it. -/
theorem isCloserVersion_true_not_better {d : Bool} {md mv : Nat} {bt nm : List Char}
    {c : Closest} (h : isCloserVersion d md mv bt c = true) :
    ¬ specBetter d c ⟨md, mv, bt, nm⟩ := by
  rw [isCloserVersion] at h
  split at h
  · rename_i htie
    have h1 : matchRank d (⟨md, mv, bt, nm⟩ : Closest) = 1 :=
      matchRank_eq_one ⟨md, mv, bt, nm⟩ h
    have h2 := matchRank_le_one d c
    unfold specBetter
    dsimp only
    omega
  · rename_i htie
    simp only [Bool.or_eq_true, Bool.and_eq_true, decide_eq_true_eq, beq_iff_eq] at h
    unfold specBetter
    dsimp only
    omega

/-- When the scan keeps the previous best, the rejected candidate was not
strictly preferred to it. -/
theorem isCloserVersion_false_not_better {d : Bool} {md mv : Nat} {bt : List Char}
    (nm : List Char) {c : Closest} (h : isCloserVersion d md mv bt c = false) :
    ¬ specBetter d (⟨md, mv, bt, nm⟩ : Closest) c := by
  rw [isCloserVersion] at h
  split at h
  · rename_i htie
    have h1 : matchRank d (⟨md, mv, bt, nm⟩ : Closest) = 0 :=
      matchRank_eq_zero ⟨md, mv, bt, nm⟩ h
    unfold specBetter
    dsimp only
    omega
  · rename_i htie
    have h' : ¬ (md < c.majorDifference ∨ (md = c.majorDifference ∧ mv > c.minorVersion)) := by
      intro hcontra
      have : (decide (md < c.majorDifference) ||
          (md == c.majorDifference && decide (mv > c.minorVersion))) = true := by
        simp only [Bool.or_eq_true, Bool.and_eq_true, decide_eq_true_eq, beq_iff_eq]
        exact hcontra
      rw [h] at this
      exact Bool.noConfusion this
    unfold specBetter
    dsimp only
    omega

theorem pureStep_cases (r : LibraryNameRegex) (d : Bool) (mj : Nat)
    (isDir : List Char → Bool) (acc : Option Closest) (name : List Char) :
    pureStep r d mj isDir acc name = acc ∨
      ∃ cn, candOf r mj isDir name = some cn ∧ pureStep r d mj isDir acc name = some cn := by
  cases hc : candOf r mj isDir name with
  | none => exact Or.inl (by simp only [pureStep, hc])
  | some cn =>
    cases acc with
    | none => exact Or.inr ⟨cn, rfl, by simp only [pureStep, hc]⟩
    | some a =>
      by_cases hcl : isCloserVersion d cn.majorDifference cn.minorVersion cn.buildType a = true
      · exact Or.inr ⟨cn, rfl, by simp only [pureStep, hc, hcl, if_true]⟩
      · exact Or.inl (by simp only [pureStep, hc, Bool.of_not_eq_true hcl, Bool.false_eq_true,
          if_false])

/-- One step never degrades the running best. -/
theorem pureStep_some_spec (r : LibraryNameRegex) (d : Bool) (mj : Nat)
    (isDir : List Char → Bool) (a : Closest) (name : List Char) :
    ∃ b, pureStep r d mj isDir (some a) name = some b ∧ ¬ specBetter d a b := by
  cases hc : candOf r mj isDir name with
  | none => exact ⟨a, by simp only [pureStep, hc], specBetter_irrefl d a⟩
  | some cn =>
    by_cases hcl : isCloserVersion d cn.majorDifference cn.minorVersion cn.buildType a = true
    · refine ⟨cn, by simp only [pureStep, hc, hcl, if_true], ?_⟩
      exact isCloserVersion_true_not_better hcl
    · refine ⟨a, by simp only [pureStep, hc, Bool.of_not_eq_true hcl, Bool.false_eq_true,
        if_false], ?_⟩
      exact specBetter_irrefl d a

theorem foldl_pureStep_from_some (r : LibraryNameRegex) (d : Bool) (mj : Nat)
    (isDir : List Char → Bool) :
    ∀ (l : List (List Char)) (a : Closest),
      ∃ c, List.foldl (pureStep r d mj isDir) (some a) l = some c ∧ ¬ specBetter d a c := by
  intro l
  induction l with
  | nil => intro a; exact ⟨a, rfl, specBetter_irrefl d a⟩
  | cons x xs ih =>
    intro a
    obtain ⟨b, hb, hab⟩ := pureStep_some_spec r d mj isDir a x
    obtain ⟨c, hc, hbc⟩ := ih b
    refine ⟨c, ?_, notBetter_trans hab hbc⟩
    rw [List.foldl_cons, hb, hc]

/-- The scan's final best is not strictly worse than any candidate it saw. -/
theorem foldl_pureStep_dominates (r : LibraryNameRegex) (d : Bool) (mj : Nat)
    (isDir : List Char → Bool) :
    ∀ (l : List (List Char)) (acc : Option Closest) (name : List Char), name ∈ l →
      ∀ cn, candOf r mj isDir name = some cn →
        ∃ c, List.foldl (pureStep r d mj isDir) acc l = some c ∧ ¬ specBetter d cn c := by
  intro l
  induction l with
  | nil => intro acc name h; exact absurd h (by simp)
  | cons x xs ih =>
    intro acc name hmem cn hcn
    rw [List.foldl_cons]
    rcases List.mem_cons.mp hmem with h | h
    · subst h
      cases acc with
      | none =>
        have hstep : pureStep r d mj isDir none name = some cn := by
          simp only [pureStep, hcn]
        rw [hstep]
        exact foldl_pureStep_from_some r d mj isDir xs cn
      | some a =>
        by_cases hcl : isCloserVersion d cn.majorDifference cn.minorVersion cn.buildType a = true
        · have hstep : pureStep r d mj isDir (some a) name = some cn := by
            simp only [pureStep, hcn, hcl, if_true]
          rw [hstep]
          exact foldl_pureStep_from_some r d mj isDir xs cn
        · have hstep : pureStep r d mj isDir (some a) name = some a := by
            simp only [pureStep, hcn, Bool.of_not_eq_true hcl, Bool.false_eq_true, if_false]
          rw [hstep]
          obtain ⟨c, hc, hac⟩ := foldl_pureStep_from_some r d mj isDir xs a
          have hna : ¬ specBetter d cn a :=
            isCloserVersion_false_not_better cn.directory (Bool.of_not_eq_true hcl)
          exact ⟨c, hc, notBetter_trans hna hac⟩
    · exact ih (pureStep r d mj isDir acc x) name h cn hcn

/-- The scan's final best, when present, is one of the candidates (or the
starting accumulator). -/
theorem foldl_pureStep_mem (r : LibraryNameRegex) (d : Bool) (mj : Nat)
    (isDir : List Char → Bool) :
    ∀ (l : List (List Char)) (acc : Option Closest) (c : Closest),
      List.foldl (pureStep r d mj isDir) acc l = some c →
      acc = some c ∨ ∃ name ∈ l, candOf r mj isDir name = some c := by
  intro l
  induction l with
  | nil => intro acc c h; exact Or.inl h
  | cons x xs ih =>
    intro acc c h
    rw [List.foldl_cons] at h
    rcases ih (pureStep r d mj isDir acc x) c h with h' | ⟨name, hn, hcand⟩
    · rcases pureStep_cases r d mj isDir acc x with hs | ⟨cn, hcn, hs⟩
      · exact Or.inl (hs ▸ h')
      · rw [hs] at h'
        obtain rfl : cn = c := Option.some_inj.mp h'
        exact Or.inr ⟨x, by simp, hcn⟩
    · exact Or.inr ⟨name, by simp [hn], hcand⟩

theorem foldl_pureStep_none (r : LibraryNameRegex) (d : Bool) (mj : Nat)
    (isDir : List Char → Bool) :
    ∀ (l : List (List Char)) (acc : Option Closest),
      (∀ name ∈ l, candOf r mj isDir name = none) →
      List.foldl (pureStep r d mj isDir) acc l = acc := by
  intro l
  induction l with
  | nil => intro acc _; rfl
  | cons x xs ih =>
    intro acc h
    rw [List.foldl_cons]
    have hstep : pureStep r d mj isDir acc x = acc := by
      simp only [pureStep, h x (by simp)]
    rw [hstep]
    exact ih acc (fun name hn => h name (by simp [hn]))

theorem candOf_directory {r : LibraryNameRegex} {mj : Nat} {isDir : List Char → Bool}
    {name : List Char} {c : Closest} (h : candOf r mj isDir name = some c) :
    c.directory = name ∧ isDir name = true ∧ ∃ parts, reMatchLibrary r name = some parts ∧
      c.buildType = parts.buildTag.getD (chars "release") := by
  cases hm : reMatchLibrary r name with
  | none => rw [candOf] at h; simp only [hm] at h; exact Option.noConfusion h
  | some parts =>
    rw [candOf] at h
    simp only [hm] at h
    by_cases hd : isDir name = true
    · rw [if_pos hd, Option.some_inj] at h
      exact ⟨by rw [← h], hd, parts, rfl, by rw [← h]⟩
    · rw [if_neg hd] at h
      exact Option.noConfusion h

theorem candOf_of_matching (r : LibraryNameRegex) (mj : Nat) {isDir : List Char → Bool}
    {name : List Char} (hd : isDir name = true)
    (hm : (reMatchLibrary r name).isSome = true) :
    ∃ cn, candOf r mj isDir name = some cn := by
  obtain ⟨parts, hp⟩ := Option.isSome_iff_exists.mp hm
  have : candOf r mj isDir name =
      some ⟨Nat.dist (digitsToNat ((pySplit parts.version '.').headD [])) mj,
        if (pySplit parts.version '.').length = 1 then 0
        else digitsToNat (((pySplit parts.version '.').drop 1).headD []),
        parts.buildTag.getD (chars "release"), name⟩ := by
    simp only [candOf, hp, hd, if_true]
  exact ⟨_, this⟩

/-! ### Claim theorems -/

/-- C2: for every environment and root directory, if the subdirectory whose
name is the exact encoded identity of the active toolchain (as produced by
`_make_build_directory_name`) exists and is a directory,
`find_or_guess_library_directory` returns that subdirectory's path, regardless
of which other fuzzy-compatible directories also exist. -/
theorem exact_match_precedence
    (env : Env) (root : List Char) (entries : List (List Char)) (isDir : List Char → Bool)
    (cname s0 s1 en : List Char) (vs : List (List Char)) (mj mn : Nat)
    (hn : get_compiler_name env = .ok cname)
    (hv : get_compiler_version env = .ok (some vs))
    (h0 : pyIndex vs 0 = .ok s0) (hm : pyInt s0 = .ok mj)
    (h1 : pyIndex vs 1 = .ok s1) (hmn : pyInt s1 = .ok mn)
    (hen : make_build_directory_name env cname mj (some mn) = .ok en)
    (hdir : isDir en = true) :
    find_or_guess_library_directory env root entries isDir =
      .ok (some (pathJoin root en), []) := by
  simp only [find_or_guess_library_directory, hn, hv, h0, hm, h1, hmn, hen, except_ok_bind,
    hdir, if_true]

/-- Sample environment for the witnesses: Linux host, release build, `g++`
configured as the C++ compiler, memoized compiler version 9.2, no explicitly
set target architecture. -/
def gccEnv : Env :=
  ⟨false, none, some (chars "g++"), none, some [chars "9", chars "2"], none, none,
    some none, none, []⟩

theorem exact_match_precedence_witness :
    find_or_guess_library_directory gccEnv (chars "ThirdParty/mylib")
      [chars "linux-gcc9.2-amd64-release", chars "linux-gcc8.1-amd64-release"]
      (fun n => n == chars "linux-gcc9.2-amd64-release" ||
        n == chars "linux-gcc8.1-amd64-release") =
      .ok (some (pathJoin (chars "ThirdParty/mylib") (chars "linux-gcc9.2-amd64-release")), []) :=
  exact_match_precedence gccEnv (chars "ThirdParty/mylib") _ _
    (chars "gcc") (chars "9") (chars "2") (chars "linux-gcc9.2-amd64-release")
    [chars "9", chars "2"] 9 2
    (by decide) (by decide) (by decide) (by decide) (by decide) (by decide) (by decide)
    (by decide)

theorem except_error_bind {ε α β : Type} (e : ε) (f : α → Except ε β) :
    (Except.error e : Except ε α) >>= f = Except.error e := rfl

/-- C10: when the detected compiler version has only a major component (a
single digits-only component, e.g. from a banner yielding `9` or an explicit
MSVC version `14`), `find_or_guess_library_directory` reads the second version
component unconditionally and fails with an index-out-of-range error before
any directory matching is attempted (for every filesystem). -/
theorem minor_version_index_error
    (env : Env) (cname s : List Char)
    (hn : get_compiler_name env = .ok cname)
    (hv : get_compiler_version env = .ok (some [s]))
    (hs : s ≠ []) (hdig : ∀ c ∈ s, c.isDigit = true) :
    ∀ (root : List Char) (entries : List (List Char)) (isDir : List Char → Bool),
      find_or_guess_library_directory env root entries isDir =
        .error PyError.indexError := by
  intro root entries isDir
  simp only [find_or_guess_library_directory, hn, hv, except_ok_bind, except_error_bind,
    pyIndex, List.get?, pyInt_digits hs hdig]

/-- Environment whose compiler banner yields a version with no dot. -/
def tccEnv : Env :=
  ⟨false, none, some (chars "tcc"), none, none, none, none, some none, none, chars "tcc 9"⟩

theorem minor_version_index_error_witness :
    find_or_guess_library_directory tccEnv (chars "r") [chars "lib"] (fun _ => true) =
      .error PyError.indexError :=
  minor_version_index_error tccEnv (chars "tcc") (chars "9")
    (by decide) (by decide) (by decide) (by decide) (chars "r") [chars "lib"] (fun _ => true)

/-- C6: for every environment in which the compiler lookup resolves to some
executable — via `CXX` directly, via the `$CC` alias, or via `CC` alone —
but the `[0-9][0-9.]*` pattern finds no match in the probe output (for the
`cl`/`icc` families this is the separate MSVC probe, reachable when no
explicit `MSVC_VERSION` is configured and a present `MSVS` entry carries its
`VCINSTALLDIR`), version detection yields the version-undetermined signal
(`ok none`), which is distinct from the no-compiler-configured failure (the
raised `FileNotFoundError`), and resolution hard-stops on it: no version is
substituted and no directory is ever returned. -/
theorem version_undetermined_hard_stop
    (env : Env) (exe : List Char)
    (hcache : env.compilerVersionCache = none)
    (hcfg : (env.cxx = some exe ∧ exe ≠ chars "$CC") ∨
      (env.cxx = some (chars "$CC") ∧ env.cc = some exe) ∨
      (env.cxx = none ∧ env.cc = some exe))
    (hmsvc : (exe = chars "cl" ∨ exe = chars "icc") →
      env.msvcVersion = none ∧ env.msvs ≠ some false)
    (hnom : reSearchNum env.probeOutput = none) :
    get_compiler_version env = .ok none ∧
    (∀ env2 : Env, env2.compilerVersionCache = none → env2.cxx = none → env2.cc = none →
      get_compiler_version env2 = .error PyError.fileNotFound) ∧
    (.ok none : Except PyError (Option (List (List Char)))) ≠
      (.error PyError.fileNotFound : Except PyError (Option (List (List Char)))) ∧
    (∀ (root : List Char) (entries : List (List Char)) (isDir : List Char → Bool),
      find_or_guess_library_directory env root entries isDir =
        .error PyError.fileNotFound) := by
  have hver : get_compiler_version env = .ok none := by
    rw [get_compiler_version, hcache]
    by_cases hcl : exe = chars "cl" ∨ exe = chars "icc"
    · obtain ⟨hmv, hmsvs⟩ := hmsvc hcl
      have hms : env.msvs = none ∨ env.msvs = some true := by
        cases hmsb : env.msvs with
        | none => exact Or.inl rfl
        | some b =>
          cases b with
          | false => exact absurd hmsb hmsvs
          | true => exact Or.inr rfl
      rcases hcfg with ⟨hcxx, halias⟩ | ⟨hcxx, hcc⟩ | ⟨hcxx, hcc⟩
      · rcases hms with hms | hms <;>
          simp only [hcxx, if_neg halias, except_ok_bind, if_pos hcl, hmv, hms,
            eq_self_iff_true, if_true, hnom]
      · rcases hms with hms | hms <;>
          simp only [hcxx, hcc, if_pos rfl, except_ok_bind, if_pos hcl, hmv, hms,
            eq_self_iff_true, if_true, hnom]
      · rcases hms with hms | hms <;>
          simp only [hcxx, hcc, except_ok_bind, if_pos hcl, hmv, hms,
            eq_self_iff_true, if_true, hnom]
    · rcases hcfg with ⟨hcxx, halias⟩ | ⟨hcxx, hcc⟩ | ⟨hcxx, hcc⟩
      · simp only [hcxx, if_neg halias, except_ok_bind, if_neg hcl, hnom]
      · simp only [hcxx, hcc, if_pos rfl, except_ok_bind, if_neg hcl, if_true, hnom]
      · simp only [hcxx, hcc, except_ok_bind, if_neg hcl, hnom]
  have hname : ∃ cname, get_compiler_name env = .ok cname := by
    rw [get_compiler_name]
    rcases hcfg with ⟨hcxx, halias⟩ | ⟨hcxx, hcc⟩ | ⟨hcxx, hcc⟩
    · simp only [hcxx, if_neg halias, except_ok_bind]
      split_ifs <;> exact ⟨_, rfl⟩
    · simp only [hcxx, hcc, if_pos rfl, except_ok_bind, if_true]
      split_ifs <;> exact ⟨_, rfl⟩
    · simp only [hcxx, hcc, except_ok_bind]
      split_ifs <;> exact ⟨_, rfl⟩
  obtain ⟨cname, hname⟩ := hname
  refine ⟨hver, ?_, by decide, ?_⟩
  · intro env2 h1 h2 h3
    simp only [get_compiler_version, h1, h2, h3, except_error_bind]
  · intro root entries isDir
    simp only [find_or_guess_library_directory, hname, hver, except_ok_bind,
      except_error_bind]

/-- Environment with a configured compiler whose banner holds no digits. -/
def noDigitEnv : Env :=
  ⟨false, none, some (chars "gcc"), none, none, none, none, some none, none,
    chars "no version banner"⟩

theorem version_undetermined_hard_stop_witness :
    get_compiler_version noDigitEnv = .ok none ∧
    find_or_guess_library_directory noDigitEnv (chars "r") [chars "lib"] (fun _ => true) =
      .error PyError.fileNotFound := by
  have h := version_undetermined_hard_stop noDigitEnv (chars "gcc") rfl
    (Or.inl ⟨rfl, by decide⟩) (fun hc => absurd hc (by decide)) (by decide)
  exact ⟨h.1, h.2.2.2 (chars "r") [chars "lib"] (fun _ => true)⟩

/-- C8 (amended): the C++ compiler setting is preferred (the C compiler
setting is then irrelevant); the `$CC` alias substitutes the C compiler's
value; an absent C++ setting falls back to the C compiler setting; with
neither configured, `get_compiler_name` fails with the toolchain-not-found
error, and `get_compiler_version` does so provided no memoized
`COMPILER_VERSION` is present (the cache short-circuits the lookup). -/
theorem compiler_lookup_resolution_order :
    (∀ (env : Env) (v : List Char) (cc' : Option (List Char)), env.cxx = some v →
      v ≠ chars "$CC" →
      get_compiler_name { env with cc := cc' } = get_compiler_name env) ∧
    (∀ (env : Env) (c : List Char), env.cxx = some (chars "$CC") → env.cc = some c →
      get_compiler_name env = get_compiler_name { env with cxx := some c }) ∧
    (∀ env : Env, env.cxx = none →
      get_compiler_name env = get_compiler_name { env with cxx := env.cc }) ∧
    (∀ env : Env, env.cxx = none → env.cc = none →
      get_compiler_name env = .error PyError.fileNotFound) ∧
    (∀ env : Env, env.cxx = none → env.cc = none → env.compilerVersionCache = none →
      get_compiler_version env = .error PyError.fileNotFound) := by
  refine ⟨?_, ?_, ?_, ?_, ?_⟩
  · intro env v cc' hcxx hne
    simp only [get_compiler_name, hcxx, if_neg hne, except_ok_bind]
  · intro env c h1 h2
    by_cases hc : c = chars "$CC"
    · subst hc
      rw [← h1]
    · simp only [get_compiler_name, h1, h2, if_pos rfl, if_neg hc, except_ok_bind, if_true]
  · intro env h
    cases hcc : env.cc with
    | none => simp only [get_compiler_name, h, hcc, except_error_bind]
    | some c =>
      by_cases hc : c = chars "$CC"
      · subst hc
        simp only [get_compiler_name, h, hcc, if_pos rfl, except_ok_bind, if_true]
      · simp only [get_compiler_name, h, hcc, if_neg hc, except_ok_bind]
  · intro env h1 h2
    simp only [get_compiler_name, h1, h2, except_error_bind]
  · intro env h1 h2 h3
    simp only [get_compiler_version, h1, h2, h3, except_error_bind]

theorem compiler_lookup_resolution_order_witness :
    get_compiler_name (⟨false, none, none, none, none, none, none, some none, none, []⟩ :
      Env) = .error PyError.fileNotFound :=
  compiler_lookup_resolution_order.2.2.2.1 _ rfl rfl

/-- Environment with a memoized compiler version but no compiler configured. -/
def cachedOnlyEnv : Env :=
  ⟨false, none, none, none, some [chars "9", chars "3"], none, none, some none, none, []⟩

/-- C8 counterexample: with a memoized `COMPILER_VERSION` but neither `CXX`
nor `CC` configured, `get_compiler_version` returns the cached value instead
of failing with a toolchain-not-found error. -/
theorem compiler_lookup_cached_counterexample :
    cachedOnlyEnv.cxx = none ∧ cachedOnlyEnv.cc = none ∧
    get_compiler_version cachedOnlyEnv = .ok (some [chars "9", chars "3"]) :=
  ⟨rfl, rfl, rfl⟩

/-- C9 (amended): a set (non-`None`) `TARGET_ARCH` is used unchanged in both
the encoded directory name and the compatibility pattern; a present
`TARGET_ARCH` whose value is `None` falls back to `amd64`; a `TARGET_ARCH`
key that is entirely absent raises `KeyError` instead of falling back. -/
theorem architecture_default_behaviour :
    (∀ (env : Env) (a : List Char), env.targetArch = some (some a) →
      get_architecture_or_default env = .ok a) ∧
    (∀ env : Env, env.targetArch = some none →
      get_architecture_or_default env = .ok (chars "amd64")) ∧
    (∀ env : Env, env.targetArch = none →
      get_architecture_or_default env = .error PyError.keyError) ∧
    (∀ (env : Env) (a cname en : List Char) (mj : Nat) (mn : Option Nat),
      env.targetArch = some (some a) →
      make_build_directory_name env cname mj mn = .ok en →
      ∃ pre post, en = pre ++ '-' :: a ++ '-' :: post) ∧
    (∀ (env : Env) (a : List Char) (rgx : LibraryNameRegex),
      env.compatRegexCache = none → env.targetArch = some (some a) →
      build_library_name_regex env = .ok rgx → rgx.architectureTag = a) := by
  refine ⟨?_, ?_, ?_, ?_, ?_⟩
  · intro env a h
    simp only [get_architecture_or_default, h]
  · intro env h
    simp only [get_architecture_or_default, h]
  · intro env h
    simp only [get_architecture_or_default, h]
  · intro env a cname en mj mn harch hen
    simp only [make_build_directory_name, get_architecture_or_default, harch,
      except_ok_bind, Except.ok.injEq] at hen
    cases mn with
    | none =>
      refine ⟨(if env.hostIsWindows then chars "windows" else chars "linux") ++
        '-' :: (cname ++ natToDigits mj),
        if env.debug.getD false then chars "debug" else chars "release", ?_⟩
      rw [← hen]
    | some m =>
      refine ⟨(if env.hostIsWindows then chars "windows" else chars "linux") ++
        '-' :: (cname ++ natToDigits mj ++ '.' :: natToDigits m),
        if env.debug.getD false then chars "debug" else chars "release", ?_⟩
      rw [← hen]
  · intro env a rgx hcache harch hrg
    simp only [build_library_name_regex, hcache, get_architecture_or_default, harch,
      except_ok_bind, Except.ok.injEq] at hrg
    rw [← hrg]

theorem architecture_default_behaviour_witness :
    get_architecture_or_default
      (⟨false, none, none, none, none, none, none, some (some (chars "armhf")), none, []⟩ :
        Env) = .ok (chars "armhf") :=
  architecture_default_behaviour.1 _ (chars "armhf") rfl

/-- Environment in which the `TARGET_ARCH` key is entirely absent. -/
def noArchEnv : Env :=
  ⟨false, none, some (chars "gcc"), none, none, none, none, none, none, []⟩

/-- C9 counterexample: with the architecture absent from the configuration
(no `TARGET_ARCH` key at all), the lookup raises `KeyError` instead of
falling back to `amd64`. -/
theorem architecture_missing_key_counterexample :
    noArchEnv.targetArch = none ∧
    get_architecture_or_default noArchEnv = .error PyError.keyError ∧
    get_architecture_or_default noArchEnv ≠ .ok (chars "amd64") :=
  ⟨rfl, rfl, by decide⟩

/-- C7: with no entry matching the compatibility pattern and the exact name
absent, `find_or_guess_library_directory` returns the plain `lib` subdirectory
when it exists as a directory; when it does not, the outcome is no path at all
together with a diagnostic that names both the root directory and the exact
directory name that was sought. -/
theorem fallback_and_failure
    (env : Env) (root : List Char) (entries : List (List Char)) (isDir : List Char → Bool)
    (cname s0 s1 en : List Char) (vs : List (List Char)) (mj mn : Nat)
    (rgx : LibraryNameRegex)
    (hn : get_compiler_name env = .ok cname)
    (hv : get_compiler_version env = .ok (some vs))
    (h0 : pyIndex vs 0 = .ok s0) (hm : pyInt s0 = .ok mj)
    (h1 : pyIndex vs 1 = .ok s1) (hmn : pyInt s1 = .ok mn)
    (hen : make_build_directory_name env cname mj (some mn) = .ok en)
    (hrg : build_library_name_regex env = .ok rgx)
    (habs : isDir en = false)
    (hnomatch : ∀ name ∈ entries, reMatchLibrary rgx name = none) :
    (isDir (chars "lib") = true →
      find_or_guess_library_directory env root entries isDir =
        .ok (some (pathJoin root (chars "lib")), [libFallbackWarning root en])) ∧
    (isDir (chars "lib") = false →
      find_or_guess_library_directory env root entries isDir =
        .ok (none, [notFoundMessage root en]) ∧
      (∃ pre post, notFoundMessage root en = pre ++ root ++ post) ∧
      (∃ pre post, notFoundMessage root en = pre ++ en ++ post)) := by
  have hfold : List.foldlM (scanStep rgx (env.debug.getD false) mj isDir) none entries =
      .ok (none : Option Closest) := by
    rw [foldlM_scanStep, foldl_pureStep_none]
    intro name hname
    rw [candOf, hnomatch name hname]
  constructor
  · intro hlib
    simp only [find_or_guess_library_directory, hn, hv, h0, hm, h1, hmn, hen, hrg,
      except_ok_bind, habs, Bool.false_eq_true, if_false, hfold, hlib, if_true]
  · intro hlib
    refine ⟨?_, ?_, ?_⟩
    · simp only [find_or_guess_library_directory, hn, hv, h0, hm, h1, hmn, hen, hrg,
        except_ok_bind, habs, Bool.false_eq_true, if_false, hfold, hlib]
    · refine ⟨chars "\x1b[1;31mError: no fitting binary for library \"",
        chars "\" (needed \"" ++ en ++ chars "\") found. Giving up.\x1b[0m", ?_⟩
      simp [notFoundMessage, List.append_assoc]
    · refine ⟨chars "\x1b[1;31mError: no fitting binary for library \"" ++ root ++
        chars "\" (needed \"", chars "\") found. Giving up.\x1b[0m", ?_⟩
      simp [notFoundMessage, List.append_assoc]

theorem fallback_and_failure_witness :
    find_or_guess_library_directory gccEnv (chars "r") [chars "README"]
        (fun n => n == chars "lib") =
      .ok (some (pathJoin (chars "r") (chars "lib")),
        [libFallbackWarning (chars "r") (chars "linux-gcc9.2-amd64-release")]) ∧
    find_or_guess_library_directory gccEnv (chars "r") [chars "README"] (fun _ => false) =
      .ok (none, [notFoundMessage (chars "r") (chars "linux-gcc9.2-amd64-release")]) := by
  constructor
  · exact (fallback_and_failure gccEnv (chars "r") [chars "README"]
      (fun n => n == chars "lib") (chars "gcc") (chars "9") (chars "2")
      (chars "linux-gcc9.2-amd64-release") [chars "9", chars "2"] 9 2
      ⟨chars "linux", [chars "gcc", chars "clang"], chars "amd64", false⟩
      (by decide) (by decide) (by decide) (by decide) (by decide) (by decide) (by decide)
      (by decide) (by decide) (by decide)).1 (by decide)
  · exact ((fallback_and_failure gccEnv (chars "r") [chars "README"] (fun _ => false)
      (chars "gcc") (chars "9") (chars "2")
      (chars "linux-gcc9.2-amd64-release") [chars "9", chars "2"] 9 2
      ⟨chars "linux", [chars "gcc", chars "clang"], chars "amd64", false⟩
      (by decide) (by decide) (by decide) (by decide) (by decide) (by decide) (by decide)
      (by decide) (by decide) (by decide)).2 (by decide)).1

/-! ### Discriminating the printed messages -/

theorem append_ne_of_head_ne {a b : Char} (hab : a ≠ b) :
    ∀ (x u v : List Char), x ++ a :: u ≠ x ++ b :: v := by
  intro x
  induction x with
  | nil =>
    intro u v h
    rw [List.nil_append, List.nil_append] at h
    injection h with h1 h2
    exact hab h1
  | cons c x ih =>
    intro u v h
    rw [List.cons_append, List.cons_append] at h
    injection h with h1 h2
    exact ih u v h2

theorem closestMatchWarning_ne_libFallbackWarning (root en d : List Char) :
    closestMatchWarning root en d ≠ libFallbackWarning root en := by
  intro h
  rw [closestMatchWarning, libFallbackWarning] at h
  have hc : chars "\"), falling back to closest match, which is \"" =
      chars "\"), falling back to " ++ 'c' :: chars "losest match, which is \"" := by decide
  have hs : chars "\"), falling back to standard \"lib\" dir of unknown compiler and architecture.\x1b[0m" =
      chars "\"), falling back to " ++
        's' :: chars "tandard \"lib\" dir of unknown compiler and architecture.\x1b[0m" := by
    decide
  rw [hc, hs] at h
  simp only [List.append_assoc, List.cons_append] at h
  have h2 := List.append_cancel_left h
  have h3 := List.append_cancel_left h2
  have h4 := List.append_cancel_left h3
  have h5 := List.append_cancel_left h4
  have h6 := List.append_cancel_left h5
  injection h6 with h7 h8
  exact absurd h7 (by decide)

theorem closestMatchWarning_dir_inj {root en d1 d2 : List Char}
    (h : closestMatchWarning root en d1 = closestMatchWarning root en d2) : d1 = d2 := by
  rw [closestMatchWarning, closestMatchWarning] at h
  simp only [List.append_assoc] at h
  have h2 := List.append_cancel_left h
  have h3 := List.append_cancel_left h2
  have h4 := List.append_cancel_left h3
  have h5 := List.append_cancel_left h4
  have h6 := List.append_cancel_left h5
  exact List.append_cancel_right h6

/-- Debug-mode environment with memoized compiler version 7.0. -/
def debugEnv : Env :=
  ⟨false, some true, some (chars "gcc"), none, some [chars "7", chars "0"], none, none,
    some none, none, []⟩

/-- C3: a release-mode request can never fuzzy-match (and hence never return)
a directory whose name carries a `-debug` build-config segment — the
compatibility pattern only admits an absent segment or `-release` — while a
debug-mode request admits both, so a release-only artifact may be selected
for a debug build. -/
theorem debug_release_asymmetry :
    (∀ (env : Env) (rgx : LibraryNameRegex) (name : List Char) (parts : ParsedName),
      env.debug.getD false = false → env.compatRegexCache = none →
      build_library_name_regex env = .ok rgx → reMatchLibrary rgx name = some parts →
      parts.buildTag = none ∨ parts.buildTag = some (chars "release")) ∧
    (∀ (env : Env) (root : List Char) (entries : List (List Char))
        (isDir : List Char → Bool) (cname s0 s1 en dd p : List Char)
        (vs : List (List Char)) (mj mn : Nat) (rgx : LibraryNameRegex),
      env.debug.getD false = false → env.compatRegexCache = none →
      get_compiler_name env = .ok cname →
      get_compiler_version env = .ok (some vs) →
      pyIndex vs 0 = .ok s0 → pyInt s0 = .ok mj →
      pyIndex vs 1 = .ok s1 → pyInt s1 = .ok mn →
      make_build_directory_name env cname mj (some mn) = .ok en →
      build_library_name_regex env = .ok rgx →
      find_or_guess_library_directory env root entries isDir =
        .ok (some p, [closestMatchWarning root en dd]) →
      ∃ parts, reMatchLibrary rgx dd = some parts ∧
        parts.buildTag ≠ some (chars "debug")) ∧
    (find_or_guess_library_directory debugEnv (chars "r")
        [chars "linux-gcc7.1-amd64-release"]
        (fun n => n == chars "linux-gcc7.1-amd64-release") =
      .ok (some (pathJoin (chars "r") (chars "linux-gcc7.1-amd64-release")),
        [closestMatchWarning (chars "r") (chars "linux-gcc7.0-amd64-debug")
          (chars "linux-gcc7.1-amd64-release")])) := by
  have hpart1 : ∀ (env : Env) (rgx : LibraryNameRegex) (name : List Char) (parts : ParsedName),
      env.debug.getD false = false → env.compatRegexCache = none →
      build_library_name_regex env = .ok rgx → reMatchLibrary rgx name = some parts →
      parts.buildTag = none ∨ parts.buildTag = some (chars "release") := by
    intro env rgx name parts hdbg hcache hrg hmatch
    cases harch : get_architecture_or_default env with
    | error e =>
      rw [build_library_name_regex, hcache] at hrg
      simp only [harch, except_error_bind] at hrg
      exact Except.noConfusion hrg
    | ok a =>
      rw [build_library_name_regex, hcache] at hrg
      simp only [harch, except_ok_bind, Except.ok.injEq] at hrg
      have hdbgfield : rgx.allowDebug = false := by
        rw [← hrg, hdbg]
      rcases (reMatchLibrary_some hmatch).2.1 with h | h | ⟨had, -⟩
      · exact Or.inl h
      · exact Or.inr h
      · rw [hdbgfield] at had
        exact Bool.noConfusion had
  refine ⟨hpart1, ?_, by decide⟩
  intro env root entries isDir cname s0 s1 en dd p vs mj mn rgx hdbg hcache hn hv h0 hm h1
    hmn hen hrg hres
  by_cases hdir : isDir en = true
  · have heq : find_or_guess_library_directory env root entries isDir =
        .ok (some (pathJoin root en), []) := by
      simp only [find_or_guess_library_directory, hn, hv, h0, hm, h1, hmn, hen,
        except_ok_bind, hdir, if_true]
    rw [heq] at hres
    simp at hres
  · have hfoldM := foldlM_scanStep rgx (env.debug.getD false) mj isDir entries none
    cases hfold : List.foldl (pureStep rgx (env.debug.getD false) mj isDir) none entries with
    | some c =>
      have heq : find_or_guess_library_directory env root entries isDir =
          .ok (some (pathJoin root c.directory),
            [closestMatchWarning root en c.directory]) := by
        simp only [find_or_guess_library_directory, hn, hv, h0, hm, h1, hmn, hen, hrg,
          except_ok_bind, Bool.of_not_eq_true hdir, Bool.false_eq_true, if_false,
          hfoldM, hfold]
      rw [heq] at hres
      simp only [Except.ok.injEq, Prod.mk.injEq, List.cons.injEq, and_true] at hres
      have hdd : c.directory = dd := closestMatchWarning_dir_inj hres.2
      rcases foldl_pureStep_mem rgx (env.debug.getD false) mj isDir entries none c hfold with
        hcontra | ⟨name, hnm, hcand⟩
      · exact Option.noConfusion hcontra
      · obtain ⟨hdirname, hisdir, parts, hparts, hbt⟩ := candOf_directory hcand
        refine ⟨parts, by rw [← hdd, hdirname]; exact hparts, ?_⟩
        rcases hpart1 env rgx name parts hdbg hcache hrg hparts with h | h <;> rw [h] <;> simp
        intro hcontra
        have : chars "release" = chars "debug" := by rw [← hcontra]
        exact absurd this (by decide)
    | none =>
      by_cases hlib : isDir (chars "lib") = true
      · have heq : find_or_guess_library_directory env root entries isDir =
            .ok (some (pathJoin root (chars "lib")), [libFallbackWarning root en]) := by
          simp only [find_or_guess_library_directory, hn, hv, h0, hm, h1, hmn, hen, hrg,
            except_ok_bind, Bool.of_not_eq_true hdir, Bool.false_eq_true, if_false,
            hfoldM, hfold, hlib, if_true]
        rw [heq] at hres
        simp only [Except.ok.injEq, Prod.mk.injEq, List.cons.injEq, and_true] at hres
        exact absurd hres.2.symm (closestMatchWarning_ne_libFallbackWarning root en dd)
      · have heq : find_or_guess_library_directory env root entries isDir =
            .ok (none, [notFoundMessage root en]) := by
          simp only [find_or_guess_library_directory, hn, hv, h0, hm, h1, hmn, hen, hrg,
            except_ok_bind, Bool.of_not_eq_true hdir, Bool.false_eq_true, if_false,
            hfoldM, hfold, Bool.of_not_eq_true hlib]
        rw [heq] at hres
        simp at hres

theorem debug_release_asymmetry_witness :
    (⟨chars "linux", chars "gcc", chars "7.1", chars "amd64",
        some (chars "release")⟩ : ParsedName).buildTag = none ∨
      (⟨chars "linux", chars "gcc", chars "7.1", chars "amd64",
        some (chars "release")⟩ : ParsedName).buildTag = some (chars "release") :=
  debug_release_asymmetry.1 gccEnv
    ⟨chars "linux", [chars "gcc", chars "clang"], chars "amd64", false⟩
    (chars "linux-gcc7.1-amd64-release")
    ⟨chars "linux", chars "gcc", chars "7.1", chars "amd64", some (chars "release")⟩
    rfl rfl (by decide) (by decide)

/-- Release-mode environment with memoized compiler version 7.0. -/
def gcc70Env : Env :=
  ⟨false, none, some (chars "gcc"), none, some [chars "7", chars "0"], none, none,
    some none, none, []⟩

/-- C1: when the exact encoded name is absent and at least one directory entry
matches the compatibility pattern, `find_or_guess_library_directory` returns a
matching subdirectory that is maximal under the spec's strict priority
(`specBetter`): no other matching candidate is strictly preferred.  In
particular, with candidate majors 6, 7 and 8 under active major 7 the resolver
picks the major-7 candidate, and with candidates `7.1-debug` / `7.1-release`
under a release request it picks `7.1-release`. -/
theorem find_closest_is_best
    (env : Env) (root : List Char) (entries : List (List Char)) (isDir : List Char → Bool)
    (cname s0 s1 en : List Char) (vs : List (List Char)) (mj mn : Nat)
    (rgx : LibraryNameRegex)
    (hn : get_compiler_name env = .ok cname)
    (hv : get_compiler_version env = .ok (some vs))
    (h0 : pyIndex vs 0 = .ok s0) (hm : pyInt s0 = .ok mj)
    (h1 : pyIndex vs 1 = .ok s1) (hmn : pyInt s1 = .ok mn)
    (hen : make_build_directory_name env cname mj (some mn) = .ok en)
    (hrg : build_library_name_regex env = .ok rgx)
    (habs : isDir en = false)
    (hex : ∃ name ∈ entries, isDir name = true ∧ (reMatchLibrary rgx name).isSome = true) :
    (∃ c : Closest,
      find_or_guess_library_directory env root entries isDir =
        .ok (some (pathJoin root c.directory), [closestMatchWarning root en c.directory]) ∧
      c.directory ∈ entries ∧ isDir c.directory = true ∧
      candOf rgx mj isDir c.directory = some c ∧
      ∀ name ∈ entries, ∀ cn, candOf rgx mj isDir name = some cn →
        ¬ specBetter (env.debug.getD false) cn c) ∧
    (find_or_guess_library_directory gcc70Env (chars "r")
        [chars "linux-gcc6-amd64-release", chars "linux-gcc7-amd64-release",
          chars "linux-gcc8-amd64-release"]
        (fun n => n == chars "linux-gcc6-amd64-release" ||
          n == chars "linux-gcc7-amd64-release" ||
          n == chars "linux-gcc8-amd64-release") =
      .ok (some (pathJoin (chars "r") (chars "linux-gcc7-amd64-release")),
        [closestMatchWarning (chars "r") (chars "linux-gcc7.0-amd64-release")
          (chars "linux-gcc7-amd64-release")])) ∧
    (find_or_guess_library_directory gcc70Env (chars "r")
        [chars "linux-gcc7.1-amd64-debug", chars "linux-gcc7.1-amd64-release"]
        (fun n => n == chars "linux-gcc7.1-amd64-debug" ||
          n == chars "linux-gcc7.1-amd64-release") =
      .ok (some (pathJoin (chars "r") (chars "linux-gcc7.1-amd64-release")),
        [closestMatchWarning (chars "r") (chars "linux-gcc7.0-amd64-release")
          (chars "linux-gcc7.1-amd64-release")])) := by
  refine ⟨?_, by decide, by decide⟩
  obtain ⟨name0, hmem0, hdir0, hmatch0⟩ := hex
  obtain ⟨cn0, hcn0⟩ := candOf_of_matching rgx mj hdir0 hmatch0
  obtain ⟨c, hfold, -⟩ := foldl_pureStep_dominates rgx (env.debug.getD false) mj isDir
    entries none name0 hmem0 cn0 hcn0
  have hdomall : ∀ name ∈ entries, ∀ cn, candOf rgx mj isDir name = some cn →
      ¬ specBetter (env.debug.getD false) cn c := by
    intro name hmem cn hcn
    obtain ⟨c', hfold', hdom'⟩ := foldl_pureStep_dominates rgx (env.debug.getD false) mj
      isDir entries none name hmem cn hcn
    rw [hfold] at hfold'
    obtain rfl : c = c' := Option.some_inj.mp hfold'
    exact hdom'
  rcases foldl_pureStep_mem rgx (env.debug.getD false) mj isDir entries none c hfold with
    hcontra | ⟨nm, hnm, hcand⟩
  · exact Option.noConfusion hcontra
  · obtain ⟨hdirn, hisdir, -⟩ := candOf_directory hcand
    have hfoldM := foldlM_scanStep rgx (env.debug.getD false) mj isDir entries none
    have heq : find_or_guess_library_directory env root entries isDir =
        .ok (some (pathJoin root c.directory), [closestMatchWarning root en c.directory]) := by
      simp only [find_or_guess_library_directory, hn, hv, h0, hm, h1, hmn, hen, hrg,
        except_ok_bind, habs, Bool.false_eq_true, if_false, hfoldM, hfold]
    exact ⟨c, heq, hdirn ▸ hnm, hdirn ▸ hisdir, hdirn ▸ hcand, hdomall⟩

theorem find_closest_is_best_witness :
    find_or_guess_library_directory gcc70Env (chars "r")
        [chars "linux-gcc6-amd64-release", chars "linux-gcc7-amd64-release",
          chars "linux-gcc8-amd64-release"]
        (fun n => n == chars "linux-gcc6-amd64-release" ||
          n == chars "linux-gcc7-amd64-release" ||
          n == chars "linux-gcc8-amd64-release") =
      .ok (some (pathJoin (chars "r") (chars "linux-gcc7-amd64-release")),
        [closestMatchWarning (chars "r") (chars "linux-gcc7.0-amd64-release")
          (chars "linux-gcc7-amd64-release")]) :=
  (find_closest_is_best gcc70Env (chars "r")
    [chars "linux-gcc6-amd64-release", chars "linux-gcc7-amd64-release",
      chars "linux-gcc8-amd64-release"]
    (fun n => n == chars "linux-gcc6-amd64-release" ||
      n == chars "linux-gcc7-amd64-release" ||
      n == chars "linux-gcc8-amd64-release")
    (chars "gcc") (chars "7") (chars "0") (chars "linux-gcc7.0-amd64-release")
    [chars "7", chars "0"] 7 0
    ⟨chars "linux", [chars "gcc", chars "clang"], chars "amd64", false⟩
    (by decide) (by decide) (by decide) (by decide) (by decide) (by decide) (by decide)
    (by decide) (by decide) (by decide)).2.1

/-- C5 counterexample: majors 6 and 8 under active major 7 tie on every
priority criterion (distance 1, minor 0, build type `release`), and the scan
keeps the last request-matching candidate it sees, so the two enumeration
orders of the same entry set return different paths. -/
theorem scan_order_dependent_counterexample :
    ¬ (find_or_guess_library_directory gcc70Env (chars "r")
        [chars "linux-gcc6-amd64-release", chars "linux-gcc8-amd64-release"]
        (fun n => n == chars "linux-gcc6-amd64-release" ||
          n == chars "linux-gcc8-amd64-release") =
      find_or_guess_library_directory gcc70Env (chars "r")
        [chars "linux-gcc8-amd64-release", chars "linux-gcc6-amd64-release"]
        (fun n => n == chars "linux-gcc6-amd64-release" ||
          n == chars "linux-gcc8-amd64-release")) := by
  decide

/-- C5 (amended): the candidate scan is independent of the enumeration order
only when no two distinct matching directory entries tie on all three
priority criteria (major distance, minor version, build-config fit); under
that hypothesis any two orderings of the same entries yield the same result. -/
theorem find_order_independent_without_ties
    (env : Env) (root : List Char) (entries1 entries2 : List (List Char))
    (isDir : List Char → Bool)
    (cname s0 s1 en : List Char) (vs : List (List Char)) (mj mn : Nat)
    (rgx : LibraryNameRegex)
    (hn : get_compiler_name env = .ok cname)
    (hv : get_compiler_version env = .ok (some vs))
    (h0 : pyIndex vs 0 = .ok s0) (hm : pyInt s0 = .ok mj)
    (h1 : pyIndex vs 1 = .ok s1) (hmn : pyInt s1 = .ok mn)
    (hen : make_build_directory_name env cname mj (some mn) = .ok en)
    (hrg : build_library_name_regex env = .ok rgx)
    (hperm : entries1.Perm entries2)
    (hnoties : ∀ n1 ∈ entries1, ∀ n2 ∈ entries1, ∀ c1 c2 : Closest,
      candOf rgx mj isDir n1 = some c1 → candOf rgx mj isDir n2 = some c2 →
      c1.majorDifference = c2.majorDifference → c1.minorVersion = c2.minorVersion →
      matchRank (env.debug.getD false) c1 = matchRank (env.debug.getD false) c2 →
      c1 = c2) :
    find_or_guess_library_directory env root entries1 isDir =
      find_or_guess_library_directory env root entries2 isDir := by
  have hfoldeq : List.foldl (pureStep rgx (env.debug.getD false) mj isDir) none entries1 =
      List.foldl (pureStep rgx (env.debug.getD false) mj isDir) none entries2 := by
    cases hfold1 : List.foldl (pureStep rgx (env.debug.getD false) mj isDir) none entries1 with
    | none =>
      have hnone1 : ∀ name ∈ entries1, candOf rgx mj isDir name = none := by
        intro name hmem
        cases hc : candOf rgx mj isDir name with
        | none => rfl
        | some cn =>
          obtain ⟨c, hf, -⟩ := foldl_pureStep_dominates rgx (env.debug.getD false) mj isDir
            entries1 none name hmem cn hc
          rw [hfold1] at hf
          exact Option.noConfusion hf
      rw [foldl_pureStep_none rgx (env.debug.getD false) mj isDir entries2 none
        (fun name hm2 => hnone1 name (hperm.mem_iff.mpr hm2))]
    | some c1 =>
      rcases foldl_pureStep_mem rgx (env.debug.getD false) mj isDir entries1 none c1 hfold1
        with hcontra | ⟨n1, hn1, hc1⟩
      · exact Option.noConfusion hcontra
      obtain ⟨c2, hfold2, hdom21⟩ := foldl_pureStep_dominates rgx (env.debug.getD false) mj
        isDir entries2 none n1 (hperm.mem_iff.mp hn1) c1 hc1
      rcases foldl_pureStep_mem rgx (env.debug.getD false) mj isDir entries2 none c2 hfold2
        with hcontra | ⟨n2, hn2, hc2⟩
      · exact Option.noConfusion hcontra
      obtain ⟨c1', hfold1', hdom12⟩ := foldl_pureStep_dominates rgx (env.debug.getD false)
        mj isDir entries1 none n2 (hperm.mem_iff.mpr hn2) c2 hc2
      rw [hfold1] at hfold1'
      obtain rfl : c1 = c1' := Option.some_inj.mp hfold1'
      obtain ⟨he1, he2, he3⟩ := notBetter_antisymm hdom12 hdom21
      have : c2 = c1 := hnoties n2 (hperm.mem_iff.mpr hn2) n1 hn1 c2 c1 hc2 hc1 he1 he2 he3
      rw [hfold2, this]
  simp only [find_or_guess_library_directory, hn, hv, h0, hm, h1, hmn, hen, hrg,
    except_ok_bind, foldlM_scanStep, hfoldeq]

theorem find_order_independent_without_ties_witness :
    find_or_guess_library_directory gcc70Env (chars "r")
        [chars "README", chars "linux-gcc6-amd64-release"]
        (fun n => n == chars "linux-gcc6-amd64-release") =
      find_or_guess_library_directory gcc70Env (chars "r")
        [chars "linux-gcc6-amd64-release", chars "README"]
        (fun n => n == chars "linux-gcc6-amd64-release") := by
  refine find_order_independent_without_ties gcc70Env (chars "r")
    [chars "README", chars "linux-gcc6-amd64-release"]
    [chars "linux-gcc6-amd64-release", chars "README"]
    (fun n => n == chars "linux-gcc6-amd64-release")
    (chars "gcc") (chars "7") (chars "0") (chars "linux-gcc7.0-amd64-release")
    [chars "7", chars "0"] 7 0
    ⟨chars "linux", [chars "gcc", chars "clang"], chars "amd64", false⟩
    (by decide) (by decide) (by decide) (by decide) (by decide) (by decide) (by decide)
    (by decide) (by decide) ?_
  intro n1 hn1 n2 hn2 c1 c2 hc1 hc2 _ _ _
  have e1 : n1 = chars "README" ∨ n1 = chars "linux-gcc6-amd64-release" := by
    simpa using hn1
  have e2 : n2 = chars "README" ∨ n2 = chars "linux-gcc6-amd64-release" := by
    simpa using hn2
  rcases e1 with rfl | rfl
  · rw [show candOf ⟨chars "linux", [chars "gcc", chars "clang"], chars "amd64", false⟩ 7
      (fun n => n == chars "linux-gcc6-amd64-release") (chars "README") = none
      from by decide] at hc1
    exact Option.noConfusion hc1
  · rcases e2 with rfl | rfl
    · rw [show candOf ⟨chars "linux", [chars "gcc", chars "clang"], chars "amd64", false⟩ 7
        (fun n => n == chars "linux-gcc6-amd64-release") (chars "README") = none
        from by decide] at hc2
      exact Option.noConfusion hc2
    · exact Option.some_inj.mp (hc1.symm.trans hc2)

theorem stripLead?_cons_ne {a b : Char} (h : ¬ a = b) (ps s : List Char) :
    stripLead? (a :: ps) (b :: s) = none := by
  rw [stripLead?, if_neg h]

theorem stripLead?_prefix_cons (p : List Char) (c : Char) (r : List Char) :
    stripLead? (p ++ [c]) (p ++ c :: r) = some r := by
  rw [show p ++ c :: r = (p ++ [c]) ++ r by simp, stripLead?_append]

theorem stripLead?_cons_self (c : Char) (p r : List Char) :
    stripLead? (c :: p) (c :: (p ++ r)) = some r := by
  rw [stripLead?, if_pos rfl, stripLead?_append]

/-- C4 (amended): for every toolchain identity with a minor version present
whose compiler family belongs to the platform's compatibility set, encoding
with `_make_build_directory_name` and parsing the result with the pattern of
`_build_library_name_regex` for the same environment recovers every field:
platform, compiler family, major and minor version, architecture and build
configuration. -/
theorem encode_parse_roundtrip
    (env : Env) (fam arch en : List Char) (mj mn : Nat) (rgx : LibraryNameRegex)
    (hfam : fam ∈ get_compatible_compiler_tags env)
    (hcache : env.compatRegexCache = none)
    (harch : get_architecture_or_default env = .ok arch)
    (hen : make_build_directory_name env fam mj (some mn) = .ok en)
    (hrg : build_library_name_regex env = .ok rgx) :
    reMatchLibrary rgx en = some
      ⟨(if env.hostIsWindows then chars "windows" else chars "linux"), fam,
        natToDigits mj ++ '.' :: natToDigits mn, arch,
        some (if env.debug.getD false then chars "debug" else chars "release")⟩ ∧
    (pySplit (natToDigits mj ++ '.' :: natToDigits mn) '.').map digitsToNat = [mj, mn] := by
  have hdots1 : ∀ c ∈ natToDigits mj, c ≠ '.' :=
    fun c hc => isDigit_ne_dot (natToDigits_isDigit mj c hc)
  have hdots2 : ∀ c ∈ natToDigits mn, c ≠ '.' :=
    fun c hc => isDigit_ne_dot (natToDigits_isDigit mn c hc)
  refine ⟨?_, ?_⟩
  case refine_2 =>
    rw [pySplit_append _ _ hdots1, pySplit_sepFree _ hdots2]
    simp [digitsToNat_natToDigits]
  rw [build_library_name_regex, hcache] at hrg
  simp only [harch, except_ok_bind, Except.ok.injEq] at hrg
  subst hrg
  rw [make_build_directory_name] at hen
  simp only [harch, except_ok_bind, Except.ok.injEq] at hen
  subst hen
  have hver : parseVersionGroup (natToDigits mj ++ '.' :: (natToDigits mn ++ '-' ::
      (arch ++ '-' :: (if env.debug.getD false then chars "debug" else chars "release")))) =
      some (natToDigits mj ++ '.' :: natToDigits mn, '-' ::
        (arch ++ '-' :: (if env.debug.getD false then chars "debug" else chars "release"))) := by
    obtain ⟨ht1, hd1⟩ := takeWhile_append_stop (natToDigits mj)
      (natToDigits mn ++ '-' ::
        (arch ++ '-' :: (if env.debug.getD false then chars "debug" else chars "release")))
      (natToDigits_isDigit mj) (by decide : Char.isDigit '.' = false)
    obtain ⟨ht2, hd2⟩ := takeWhile_append_stop (natToDigits mn)
      (arch ++ '-' :: (if env.debug.getD false then chars "debug" else chars "release"))
      (natToDigits_isDigit mn) (by decide : Char.isDigit '-' = false)
    rw [parseVersionGroup, ht1, hd1, if_neg (natToDigits_ne_nil mj)]
    simp only [ht2, hd2, if_neg (natToDigits_ne_nil mn)]
  have htail : parseConfigTail (env.debug.getD false)
      ('-' :: (if env.debug.getD false then chars "debug" else chars "release")) =
      some (some (if env.debug.getD false then chars "debug" else chars "release")) := by
    cases h : env.debug.getD false <;> decide
  cases hwin : env.hostIsWindows
  · have hfam' : fam = chars "gcc" ∨ fam = chars "clang" := by
      simpa [get_compatible_compiler_tags, hwin] using hfam
    rcases hfam' with rfl | rfl
    · simp only [hwin, Bool.false_eq_true, if_false, get_compatible_compiler_tags,
        reMatchLibrary, matchCompilerTags,
        List.cons_append, List.append_assoc, stripLead?_prefix_cons, stripLead?_append,
        stripLead?_cons_self, hver, htail]
    · have hskip : ∀ x, stripLead? (chars "gcc") (chars "clang" ++ x) = none :=
        fun x => stripLead?_cons_ne (by decide) _ _
      simp only [hwin, Bool.false_eq_true, if_false, get_compatible_compiler_tags,
        reMatchLibrary, matchCompilerTags,
        List.cons_append, List.append_assoc, stripLead?_prefix_cons, hskip,
        stripLead?_append, stripLead?_cons_self, hver, htail]
  · have hfam' : fam = chars "msvc" ∨ fam = chars "icc" := by
      simpa [get_compatible_compiler_tags, hwin] using hfam
    rcases hfam' with rfl | rfl
    · simp only [hwin, if_true, get_compatible_compiler_tags, reMatchLibrary, matchCompilerTags,
        List.cons_append, List.append_assoc, stripLead?_prefix_cons, stripLead?_append,
        stripLead?_cons_self, hver, htail]
    · have hskip : ∀ x, stripLead? (chars "msvc") (chars "icc" ++ x) = none :=
        fun x => stripLead?_cons_ne (by decide) _ _
      simp only [hwin, if_true, get_compatible_compiler_tags, reMatchLibrary, matchCompilerTags,
        List.cons_append, List.append_assoc, stripLead?_prefix_cons, hskip,
        stripLead?_append, stripLead?_cons_self, hver, htail]

theorem encode_parse_roundtrip_witness :
    reMatchLibrary ⟨chars "linux", [chars "gcc", chars "clang"], chars "amd64", false⟩
        (chars "linux-gcc9.2-amd64-release") = some
      ⟨chars "linux", chars "gcc", natToDigits 9 ++ '.' :: natToDigits 2, chars "amd64",
        some (chars "release")⟩ ∧
    (pySplit (natToDigits 9 ++ '.' :: natToDigits 2) '.').map digitsToNat = [9, 2] := by
  have h := encode_parse_roundtrip gccEnv (chars "gcc") (chars "amd64")
    (chars "linux-gcc9.2-amd64-release") 9 2
    ⟨chars "linux", [chars "gcc", chars "clang"], chars "amd64", false⟩
    (by decide) rfl (by decide) (by decide) (by decide)
  exact h

/-- C4 counterexample: the identity with family `msvc` (produced, e.g., by a
`cl` executable configured on a Linux host) encodes to a well-formed name
that the compatibility pattern of the same environment cannot parse back —
the round trip fails. -/
theorem encode_parse_roundtrip_counterexample :
    make_build_directory_name gccEnv (chars "msvc") 14 (some 1) =
      .ok (chars "linux-msvc14.1-amd64-release") ∧
    build_library_name_regex gccEnv =
      .ok ⟨chars "linux", [chars "gcc", chars "clang"], chars "amd64", false⟩ ∧
    reMatchLibrary ⟨chars "linux", [chars "gcc", chars "clang"], chars "amd64", false⟩
      (chars "linux-msvc14.1-amd64-release") = none := by
  decide

end Cplusplus
